import Mathlib

/-!
Shallow embedding of the data-cleaning pipeline of `bmtcDA.py` (lines 30-47).

The pipeline takes the uploaded CSV as a pandas DataFrame `df_raw`, writes a
normalized helper column `Factors_clean` into it, selects for each of six
canonical categories the first row whose normalized label contains the
category's first word, restricts to year-labeled columns, coerces
comma-formatted numeric strings, transposes, drops all-missing year rows and
fills the remaining missing cells with zero.

Modelling conventions:
* a CSV cell is `Option String` (`none` is pandas NaN);
* a DataFrame is an ordered list of named columns (pandas is column-oriented;
  `df[c]` takes the first column named `c`, assignment overwrites in place or
  appends a new last column);
* `pd.to_numeric(..., errors="coerce")` produces `Option PValue`: `none` is
  NaN (either a literal "nan" or a failed parse — indistinguishable
  downstream), `some` is a parsed value, where `PValue` separates finite
  rationals from the two infinities so that no float arithmetic is needed
  (the pipeline only parses, drops and fills; it never computes);
* `str.contains` is called with the default `regex=True`, but every match
  token is purely alphabetic ("through", "monthly", "daily", "student",
  "others", "total"), so a regex match coincides with plain substring search
  and is embedded as such.
-/

namespace BMTC

/-- A cell as produced by the CSV reader: a present string, or missing (NaN). -/
abbrev Cell := Option String

/-- A pandas-style raw table: ordered columns, each a name paired with its
cell values; row `i` of the table is the `i`-th entry of every column. -/
structure RawTable where
  columns : List (String × List Cell)
deriving DecidableEq

/-- Column access `df[c]`: the first column named `c`, if any. -/
def RawTable.getCol (rt : RawTable) (c : String) : Option (List Cell) :=
  (rt.columns.find? (fun p => p.1 = c)).map Prod.snd

/-- Column assignment `df[c] = vals`: overwrite in place when a column named
`c` exists (pandas keeps its position), otherwise append it as the last
column. -/
def RawTable.setCol (rt : RawTable) (c : String) (vals : List Cell) : RawTable :=
  if rt.columns.any (fun p => p.1 = c) then
    ⟨rt.columns.map (fun p => if p.1 = c then (c, vals) else p)⟩
  else
    ⟨rt.columns ++ [(c, vals)]⟩

/-- Python `str.lower()`, written at the character level so that concrete
instances reduce inside the kernel (the inputs are plain ASCII). -/
def toLowerStr (s : String) : String := ⟨s.toList.map Char.toLower⟩

/-- Python `str.strip()`: drop whitespace from both ends. -/
def trimStr (s : String) : String :=
  ⟨((s.toList.dropWhile Char.isWhitespace).reverse.dropWhile Char.isWhitespace).reverse⟩

/-- Python `s.split()[0]`: the first maximal run of non-whitespace characters
(empty for an all-whitespace string, a case the six fixed names never hit). -/
def firstWord (s : String) : String :=
  ⟨(s.toList.dropWhile Char.isWhitespace).takeWhile (fun c => !c.isWhitespace)⟩

/-- `target_factors` (line 30): the six canonical category names. -/
def targetFactors : List String :=
  ["Through Sale of Tickets", "Monthly pass", "Daily pass", "Student pass",
   "Others", "Total"]

/-- Python `t.lower().split()[0]` (line 36): the first whitespace-delimited
word of the lowercased canonical name. -/
def matchToken (t : String) : String := firstWord (toLowerStr t)

/-- Elementwise `.str.strip().str.lower()` (line 31); NaN propagates. -/
def normCell (c : Cell) : Cell := c.map (fun s => toLowerStr (trimStr s))

/-- Plain substring test: does `pat` occur contiguously in `s`?  This embeds
`str.contains(pat)` for the pipeline's metacharacter-free tokens. -/
def strContains (s pat : String) : Bool := decide (pat.toList <:+: s.toList)

/-- One step of the row mask of line 36 with `na=False`: a missing
(normalized) label matches nothing. -/
def cellMatches (tok : String) (c : Cell) : Bool :=
  match c with
  | some s => strContains s tok
  | none => false

/-- The `Factors_clean` column of the mutated table (empty if absent, which
never happens after line 31 has run). -/
def factorsClean (rt1 : RawTable) : List Cell :=
  (rt1.getCol "Factors_clean").getD []

/-- Lines 36-38 for one category: the index of `match.iloc[0]`, i.e. the
first row whose `Factors_clean` value contains the category's match token;
`none` when `len(match) == 0`. -/
def selectedIdx (rt1 : RawTable) (t : String) : Option Nat :=
  (factorsClean rt1).findIdx? (cellMatches (matchToken t))

/-- The `selected` dict (lines 33-38): category name paired with the row index
of its selected row, in `target_factors` order, categories with no matching
row omitted. -/
def selectedPairs (rt1 : RawTable) : List (String × Nat) :=
  targetFactors.filterMap (fun t => (selectedIdx rt1 t).map (fun i => (t, i)))

/-- The year-column predicate of line 42: contains "20" or "19" and does not
contain "bifurcation". -/
def isYearCol (c : String) : Bool :=
  (strContains c "20" || strContains c "19") && !(strContains c "bifurcation")

/-- `df_sel.columns`: the transposed selection has the raw table's columns,
except that an empty `selected` dict gives an empty frame with no columns. -/
def dfSelCols (rt1 : RawTable) : List String :=
  if selectedPairs rt1 = [] then [] else rt1.columns.map Prod.fst

/-- `year_cols` (line 42). -/
def yearCols (rt1 : RawTable) : List String := (dfSelCols rt1).filter isYearCol

/-- A parsed numeric value: a finite rational, or one of the two infinities
(`float("inf")` / `float("-inf")`, which `pd.to_numeric` accepts). -/
inductive PValue where
  | fin (q : ℚ)
  | inf
  | ninf
deriving DecidableEq

/-- `x.astype(str)` on one cell: pandas renders NaN as the string "nan". -/
def pyStr : Cell → String
  | none => "nan"
  | some s => s

/-- `str.replace(",", "", regex=False)`: remove every comma. -/
def stripCommas (s : String) : String := ⟨s.toList.filter (fun c => !(c == ','))⟩

/-- Value of a list of decimal digit characters. -/
def digitsToNat (l : List Char) : ℕ := l.foldl (fun a c => 10 * a + (c.toNat - 48)) 0

/-- Mantissa grammar: `digits [. digits]` or `. digits`, at least one digit.
The value is kept as a numerator/denominator pair of naturals so that the
whole parse needs a single normalizing `mkRat` at the end. -/
def parseMantissa (l : List Char) : Option (ℕ × ℕ) :=
  let ip := l.takeWhile Char.isDigit
  let rest := l.dropWhile Char.isDigit
  match rest with
  | [] => if ip.isEmpty then none else some (digitsToNat ip, 1)
  | '.' :: fp =>
    if fp.all Char.isDigit && !(ip.isEmpty && fp.isEmpty) then
      some (digitsToNat ip * 10 ^ fp.length + digitsToNat fp, 10 ^ fp.length)
    else none
  | _ => none

/-- Exponent grammar: optional sign then at least one digit; `true` means a
negative exponent. -/
def parseExp (l : List Char) : Option (Bool × ℕ) :=
  match l with
  | '+' :: r => if !r.isEmpty && r.all Char.isDigit then some (false, digitsToNat r) else none
  | '-' :: r => if !r.isEmpty && r.all Char.isDigit then some (true, digitsToNat r) else none
  | r => if !r.isEmpty && r.all Char.isDigit then some (false, digitsToNat r) else none

/-- Unsigned number grammar: mantissa with an optional `e`/`E` exponent,
as a numerator/denominator pair. -/
def parseNumberChars (l : List Char) : Option (ℕ × ℕ) :=
  match l.findIdx? (fun c => c == 'e' || c == 'E') with
  | none => parseMantissa l
  | some i => do
    let m ← parseMantissa (l.take i)
    let e ← parseExp (l.drop (i + 1))
    pure (if e.1 then (m.1, m.2 * 10 ^ e.2) else (m.1 * 10 ^ e.2, m.2))

/-- Strip one optional leading sign; `true` means negative. -/
def splitSign : List Char → Bool × List Char
  | '-' :: r => (true, r)
  | '+' :: r => (false, r)
  | l => (false, l)

/-- `pd.to_numeric(s, errors="coerce")` on one string: surrounding whitespace
is ignored, "inf"/"infinity" and "nan" are recognized case-insensitively,
anything unparseable coerces to NaN (`none`). -/
def toNumericCoerce (s : String) : Option PValue :=
  let p := splitSign (trimStr s).toList
  let low := p.2.map Char.toLower
  if low = "inf".toList ∨ low = "infinity".toList then
    some (if p.1 then PValue.ninf else PValue.inf)
  else if low = "nan".toList then none
  else
    match parseNumberChars low with
    | some nd =>
      some (PValue.fin (mkRat (if p.1 then -(Int.ofNat nd.1) else Int.ofNat nd.1) nd.2))
    | none => none

/-- The cell coercion of line 45: stringify, strip commas, parse-or-NaN. -/
def coerceCell (c : Cell) : Option PValue := toNumericCoerce (stripCommas (pyStr c))

/-- The cell of the raw table at column `col`, row `i` (missing when out of
range, which does not occur for the rectangular tables pandas produces). -/
def cellAt (rt1 : RawTable) (col : String) (i : ℕ) : Cell :=
  ((rt1.getCol col).getD []).getD i none

/-- One row of the transposed numeric table (line 45): the year column `y`
evaluated at each selected category's row, coerced. -/
def rowFor (rt1 : RawTable) (y : String) : List (Option PValue) :=
  (selectedPairs rt1).map (fun p => coerceCell (cellAt rt1 y p.2))

/-- The numeric table after line 45: one row per year column, one entry per
selected category. -/
def numTable (rt1 : RawTable) : List (String × List (Option PValue)) :=
  (yearCols rt1).map (fun y => (y, rowFor rt1 y))

/-- The cleaned output table: column names (canonical categories) and rows
keyed by year label, one value per category. -/
structure CleanedTable where
  cats : List String
  rows : List (String × List PValue)
deriving DecidableEq

/-- Line 46: `dropna(how='all')` keeps exactly the rows with at least one
non-missing value (a row with no columns at all is also dropped, as in
pandas, where `how='all'` keeps rows whose non-NA count is positive), then
`fillna(0)` replaces each remaining missing cell by zero. -/
def dropFill (tbl : List (String × List (Option PValue))) : List (String × List PValue) :=
  (tbl.filter (fun r => r.2.any Option.isSome)).map
    (fun r => (r.1, r.2.map (fun c => c.getD (PValue.fin 0))))

/-- Lines 40-47 packaged: the cleaned table derived from the mutated raw
table. -/
def cleanedOf (rt1 : RawTable) : CleanedTable :=
  ⟨(selectedPairs rt1).map Prod.fst, dropFill (numTable rt1)⟩

/-- The one fatal error of the pipeline: line 31 subscripts `df_raw['Factors']`,
which raises `KeyError` when the column is absent. -/
inductive PipelineError where
  | missingColumn
deriving DecidableEq

/-- The whole cleaning pipeline (lines 30-47).  On success it returns both the
mutated raw table (line 31 writes `Factors_clean` into `df_raw` in place) and
the cleaned table. -/
def runPipeline (rt : RawTable) : Except PipelineError (RawTable × CleanedTable) :=
  match rt.getCol "Factors" with
  | none => .error .missingColumn
  | some fvals =>
    let rt1 := rt.setCol "Factors_clean" (fvals.map normCell)
    .ok (rt1, cleanedOf rt1)

/-- The cleaned table alone, when the pipeline succeeds. -/
def runCleaned (rt : RawTable) : Option CleanedTable :=
  (runPipeline rt).toOption.map Prod.snd

/-- Characterization of `List.findIdx?`: it returns exactly the first index
whose element satisfies the predicate. -/
theorem findIdx?_first {α : Type} (p : α → Bool) (l : List α) (i : ℕ) :
    l.findIdx? p = some i ↔
      ∃ a, l[i]? = some a ∧ p a = true ∧
        ∀ j, j < i → ∀ b, l[j]? = some b → p b = false := by
  induction l generalizing i with
  | nil => simp
  | cons x xs ih =>
    rw [List.findIdx?_cons]
    by_cases hx : p x = true
    · rw [if_pos hx]
      constructor
      · intro h
        injection h with h
        subst h
        exact ⟨x, by simp, hx, fun j hj => absurd hj (Nat.not_lt_zero j)⟩
      · rintro ⟨a, ha, hpa, hmin⟩
        cases i with
        | zero => rfl
        | succ k =>
          have h0 := hmin 0 (Nat.succ_pos k) x (by simp)
          rw [h0] at hx
          exact absurd hx (by simp)
    · rw [if_neg hx, List.findIdx?_succ]
      rw [Bool.not_eq_true] at hx
      cases i with
      | zero =>
        simp only [Option.map_eq_some']
        constructor
        · rintro ⟨i', -, h⟩
          omega
        · rintro ⟨a, ha, hpa, -⟩
          rw [List.getElem?_cons_zero] at ha
          injection ha with ha
          subst ha
          rw [hx] at hpa
          exact absurd hpa (by simp)
      | succ k =>
        simp only [Option.map_eq_some']
        constructor
        · rintro ⟨i', hfind, hik⟩
          have hik' : i' = k := by omega
          subst hik'
          obtain ⟨a, ha, hpa, hmin⟩ := (ih i').mp hfind
          refine ⟨a, by simpa using ha, hpa, ?_⟩
          intro j hj b hb
          cases j with
          | zero =>
            rw [List.getElem?_cons_zero] at hb
            injection hb with hb
            subst hb
            exact hx
          | succ m =>
            rw [List.getElem?_cons_succ] at hb
            exact hmin m (by omega) b hb
        · rintro ⟨a, ha, hpa, hmin⟩
          refine ⟨k, (ih k).mpr ⟨a, by simpa using ha, hpa, ?_⟩, rfl⟩
          intro j hj b hb
          exact hmin (j + 1) (by omega) b (by simpa using hb)

/-- The overwrite map of `setCol` rewrites entries named `c` to the new
values and leaves the rest alone. -/
def overwriteWith (c : String) (v : List Cell) (p : String × List Cell) : String × List Cell :=
  if p.1 = c then (c, v) else p

theorem setCol_eq (rt : RawTable) (c : String) (v : List Cell) :
    rt.setCol c v =
      if rt.columns.any (fun p => p.1 = c) then ⟨rt.columns.map (overwriteWith c v)⟩
      else ⟨rt.columns ++ [(c, v)]⟩ := rfl

theorem find?_map_overwrite (c : String) (v : List Cell) (l : List (String × List Cell))
    (h : l.any (fun p => p.1 = c) = true) :
    (l.map (overwriteWith c v)).find? (fun p => p.1 = c) = some (c, v) := by
  induction l with
  | nil => simp at h
  | cons q l ih =>
    by_cases hq : q.1 = c
    · rw [List.map_cons]
      have : overwriteWith c v q = (c, v) := by simp [overwriteWith, hq]
      rw [this]
      exact List.find?_cons_of_pos _ (by simp)
    · rw [List.map_cons]
      have hov : overwriteWith c v q = q := by simp [overwriteWith, hq]
      rw [hov, List.find?_cons_of_neg _ (by simpa using hq)]
      refine ih ?_
      rcases List.any_eq_true.mp h with ⟨x, hx, hxc⟩
      rcases List.mem_cons.mp hx with rfl | hx'
      · exact absurd (by simpa using hxc) hq
      · exact List.any_eq_true.mpr ⟨x, hx', hxc⟩

theorem find?_map_overwrite_ne (c d : String) (v : List Cell)
    (l : List (String × List Cell)) (hdc : d ≠ c) :
    (l.map (overwriteWith c v)).find? (fun p => p.1 = d) = l.find? (fun p => p.1 = d) := by
  induction l with
  | nil => rfl
  | cons q l ih =>
    rw [List.map_cons]
    by_cases hq : q.1 = c
    · have hov : overwriteWith c v q = (c, v) := by simp [overwriteWith, hq]
      rw [hov, List.find?_cons_of_neg _ (by simpa using fun h : c = d => hdc h.symm),
        List.find?_cons_of_neg _ (by simpa [hq] using fun h : c = d => hdc h.symm)]
      exact ih
    · have hov : overwriteWith c v q = q := by simp [overwriteWith, hq]
      rw [hov]
      by_cases hqd : q.1 = d
      · rw [List.find?_cons_of_pos _ (by simpa using hqd),
          List.find?_cons_of_pos _ (by simpa using hqd)]
      · rw [List.find?_cons_of_neg _ (by simpa using hqd),
          List.find?_cons_of_neg _ (by simpa using hqd)]
        exact ih

/-- Overwriting a column and then reading it back gives the written values. -/
theorem getCol_setCol_self (rt : RawTable) (c : String) (v : List Cell) :
    (rt.setCol c v).getCol c = some v := by
  rw [setCol_eq]
  by_cases h : rt.columns.any (fun p => p.1 = c) = true
  · rw [if_pos h]
    unfold RawTable.getCol
    rw [find?_map_overwrite c v _ h]
    rfl
  · rw [if_neg h]
    unfold RawTable.getCol
    have hnone : rt.columns.find? (fun p => p.1 = c) = none := by
      rw [List.find?_eq_none]
      intro x hx hxc
      exact h (List.any_eq_true.mpr ⟨x, hx, hxc⟩)
    rw [List.find?_append, hnone, List.find?_cons_of_pos _ (by simp)]
    rfl

/-- Writing one column leaves reads of a differently-named column unchanged. -/
theorem getCol_setCol_ne (rt : RawTable) (c d : String) (v : List Cell) (hdc : d ≠ c) :
    (rt.setCol c v).getCol d = rt.getCol d := by
  rw [setCol_eq]
  by_cases h : rt.columns.any (fun p => p.1 = c) = true
  · rw [if_pos h]
    unfold RawTable.getCol
    rw [find?_map_overwrite_ne c d v _ hdc]
  · rw [if_neg h]
    unfold RawTable.getCol
    have hlast : List.find? (fun p => p.1 = d) [(c, v)] = none := by
      rw [List.find?_eq_none]
      intro x hx
      rcases List.mem_singleton.mp hx with rfl
      simpa using fun hcd : c = d => hdc hcd.symm
    rw [List.find?_append, hlast, Option.or_none]

/-- Re-writing the same column with the same values is a no-op on the already
written table. -/
theorem setCol_setCol (rt : RawTable) (c : String) (v : List Cell) :
    (rt.setCol c v).setCol c v = rt.setCol c v := by
  by_cases h : rt.columns.any (fun p => p.1 = c) = true
  · conv_lhs => rw [setCol_eq rt, if_pos h]
    conv_rhs => rw [setCol_eq rt, if_pos h]
    rw [setCol_eq]
    have hany : (rt.columns.map (overwriteWith c v)).any (fun p => p.1 = c) = true := by
      rcases List.any_eq_true.mp h with ⟨x, hx, hxc⟩
      refine List.any_eq_true.mpr ⟨overwriteWith c v x, List.mem_map_of_mem _ hx, ?_⟩
      simp only [decide_eq_true_eq] at hxc
      simp [overwriteWith, hxc]
    rw [if_pos hany]
    congr 1
    rw [List.map_map]
    refine List.map_congr_left (fun p _ => ?_)
    by_cases hp : p.1 = c
    · simp [overwriteWith, Function.comp, hp]
    · simp [overwriteWith, Function.comp, hp]
  · conv_lhs => rw [setCol_eq rt, if_neg h]
    conv_rhs => rw [setCol_eq rt, if_neg h]
    rw [setCol_eq]
    have hany : ((rt.columns ++ [(c, v)]).any (fun p => p.1 = c)) = true :=
      List.any_eq_true.mpr ⟨(c, v), by simp, by simp⟩
    rw [if_pos hany]
    congr 1
    rw [List.map_append]
    have h1 : rt.columns.map (overwriteWith c v) = rt.columns := by
      conv_rhs => rw [← List.map_id rt.columns]
      refine List.map_congr_left (fun p hp => ?_)
      have hpc : ¬(p.1 = c) := fun hc =>
        h (List.any_eq_true.mpr ⟨p, hp, by simpa using hc⟩)
      simp [overwriteWith, hpc, id]
    rw [h1]
    simp [overwriteWith]

/-- Success inversion for the pipeline: a successful run comes from a present
`Factors` column, the mutated table is the raw table with the normalized
helper column written in, and the output is derived from the mutated table. -/
theorem runPipeline_ok_iff (rt rt1 : RawTable) (ct : CleanedTable) :
    runPipeline rt = .ok (rt1, ct) ↔
      ∃ fvals, rt.getCol "Factors" = some fvals ∧
        rt1 = rt.setCol "Factors_clean" (fvals.map normCell) ∧ ct = cleanedOf rt1 := by
  cases hf : rt.getCol "Factors" with
  | none =>
    simp only [runPipeline, hf]
    constructor
    · intro h
      exact absurd h (by simp)
    · rintro ⟨fvals, hfv, -, -⟩
      exact absurd hfv (by simp)
  | some fvals =>
    simp only [runPipeline, hf]
    constructor
    · intro h
      injection h with h
      injection h with h1 h2
      exact ⟨fvals, rfl, h1.symm, by rw [← h2, h1]⟩
    · rintro ⟨fvals', hfv, h1, h2⟩
      injection hfv with e
      subst e
      subst h1
      subst h2
      rfl

/-- After line 31 has written the helper column, the selector's first-match
search over `Factors_clean` is the first-match search over the original
`Factors` values, normalized. -/
theorem selectedIdx_mut (rt : RawTable) (fvals : List Cell) (t : String) :
    selectedIdx (rt.setCol "Factors_clean" (fvals.map normCell)) t =
      fvals.findIdx? (fun c => cellMatches (matchToken t) (normCell c)) := by
  unfold selectedIdx factorsClean
  rw [getCol_setCol_self]
  simp only [Option.getD_some]
  rw [List.findIdx?_map]
  rfl

/-- C1: Row Selector matching rule — for every RawTable containing the
category column and every canonical category name, the selected row is
exactly the first row in original row order whose category value, after
trimming surrounding whitespace and lowercasing, contains as a substring the
first whitespace-delimited word of the lowercased canonical name. -/
theorem selector_first_match (rt : RawTable) (fvals : List Cell)
    (h : rt.getCol "Factors" = some fvals) (t : String) (ht : t ∈ targetFactors) (i : ℕ) :
    selectedIdx (rt.setCol "Factors_clean" (fvals.map normCell)) t = some i ↔
      ∃ c, fvals[i]? = some c ∧ cellMatches (matchToken t) (normCell c) = true ∧
        ∀ j, j < i → ∀ c', fvals[j]? = some c' →
          cellMatches (matchToken t) (normCell c') = false := by
  rw [selectedIdx_mut rt fvals t]
  exact findIdx?_first _ fvals i

/-- Witness for C1: on a concrete table whose first row is " Total Revenue ",
the canonical name "Total" selects row 0. -/
theorem selector_first_match_witness :
    selectedIdx ((⟨[("Factors", [some " Total Revenue "]), ("2020-21", [some "3"])]⟩ :
        RawTable).setCol "Factors_clean" ([some " Total Revenue "].map normCell))
      "Total" = some 0 :=
  (selector_first_match ⟨[("Factors", [some " Total Revenue "]), ("2020-21", [some "3"])]⟩
      [some " Total Revenue "] (by decide) "Total" (by decide) 0).mpr
    ⟨some " Total Revenue ", by decide, by decide, fun j hj => absurd hj (Nat.not_lt_zero j)⟩

/-- C2: drop-then-fill ordering — a year column whose every category cell
fails numeric parsing is absent from the cleaned rows, while a year column
with at least one parsed cell is present with unparseable cells at zero. -/
theorem drop_before_fill (rt rt1 : RawTable) (ct : CleanedTable)
    (h : runPipeline rt = .ok (rt1, ct)) (y : String) (hy : y ∈ yearCols rt1) :
    ((rowFor rt1 y).all Option.isNone = true → y ∉ ct.rows.map Prod.fst) ∧
    ((rowFor rt1 y).any Option.isSome = true →
      (y, (rowFor rt1 y).map (fun c => c.getD (PValue.fin 0))) ∈ ct.rows) := by
  obtain ⟨fvals, -, -, hct⟩ := (runPipeline_ok_iff rt rt1 ct).mp h
  subst hct
  constructor
  · intro hall hymem
    unfold cleanedOf dropFill at hymem
    simp only [List.map_map] at hymem
    rcases List.mem_map.mp hymem with ⟨r, hrf, hr1⟩
    rcases List.mem_filter.mp hrf with ⟨hrT, hq⟩
    rcases List.mem_map.mp hrT with ⟨y', -, hy'⟩
    have hr2 : r.2 = rowFor rt1 y := by
      rw [← hy'] at hr1 ⊢
      simp only [Function.comp] at hr1
      rw [hr1]
    rw [hr2] at hq
    rcases List.any_eq_true.mp hq with ⟨o, ho, hos⟩
    have hno := List.all_eq_true.mp hall o ho
    cases o with
    | none => exact absurd hos (by simp)
    | some q => exact absurd hno (by simp)
  · intro hsome
    unfold cleanedOf dropFill
    refine List.mem_map.mpr ⟨(y, rowFor rt1 y), ?_, rfl⟩
    refine List.mem_filter.mpr ⟨?_, hsome⟩
    exact List.mem_map_of_mem _ hy

/-- Witness for C2: a concrete run where year "2021-22" has one parsed cell
("7") and one failed cell ("xyz"), so it is kept with the failed cell at 0. -/
theorem drop_before_fill_witness :
    ((rowFor
        (⟨[("Factors", [some "Total", some "Monthly pass"]),
           ("2021-22", [some "7", some "xyz"]),
           ("Factors_clean", [some "total", some "monthly pass"])]⟩ : RawTable)
        "2021-22").all Option.isNone = true →
      "2021-22" ∉
        (([("2021-22", [PValue.fin 0, PValue.fin 7])] :
          List (String × List PValue)).map Prod.fst)) ∧
    ((rowFor
        (⟨[("Factors", [some "Total", some "Monthly pass"]),
           ("2021-22", [some "7", some "xyz"]),
           ("Factors_clean", [some "total", some "monthly pass"])]⟩ : RawTable)
        "2021-22").any Option.isSome = true →
      ("2021-22",
        (rowFor
          (⟨[("Factors", [some "Total", some "Monthly pass"]),
             ("2021-22", [some "7", some "xyz"]),
             ("Factors_clean", [some "total", some "monthly pass"])]⟩ : RawTable)
          "2021-22").map (fun c => c.getD (PValue.fin 0))) ∈
        ([("2021-22", [PValue.fin 0, PValue.fin 7])] :
          List (String × List PValue))) :=
  drop_before_fill
    ⟨[("Factors", [some "Total", some "Monthly pass"]), ("2021-22", [some "7", some "xyz"])]⟩
    ⟨[("Factors", [some "Total", some "Monthly pass"]), ("2021-22", [some "7", some "xyz"]),
      ("Factors_clean", [some "total", some "monthly pass"])]⟩
    ⟨["Monthly pass", "Total"], [("2021-22", [PValue.fin 0, PValue.fin 7])]⟩
    (by rfl) "2021-22" (by decide)

/-- C3: numeric coercion round-trip — the cell coercion strips commas and
parses the result as a number, so "1,234.50" parses to 1234.50 (= 2469/2),
"abc" fails to parse (missing at this stage, not zero), and in a full run a
retained year row carries 1234.50 for the parsed cell and 0.0 for the
unparseable one. -/
theorem comma_strip_roundtrip :
    coerceCell (some "1,234.50") = some (PValue.fin (mkRat 2469 2)) ∧
    (mkRat 2469 2 : ℚ) = 1234.5 ∧
    coerceCell (some "abc") = none ∧
    runCleaned ⟨[("Factors", [some "Through Sale of Tickets", some "Monthly pass"]),
                 ("2020-21", [some "1,234.50", some "abc"])]⟩ =
      some ⟨["Through Sale of Tickets", "Monthly pass"],
            [("2020-21", [PValue.fin (mkRat 2469 2), PValue.fin 0])]⟩ :=
  ⟨by decide, by norm_num, by decide, by decide⟩

/-- C4: year-column filter — a column of the selected-row table is retained
exactly when its name contains "20" or "19" and does not contain
"bifurcation"; in particular "2019-20 bifurcation" is rejected by the
predicate even though it contains "20" and "19". -/
theorem year_col_rule :
    (∀ (rt1 : RawTable) (c : String),
      c ∈ yearCols rt1 ↔
        c ∈ dfSelCols rt1 ∧
          ((strContains c "20" = true ∨ strContains c "19" = true) ∧
            strContains c "bifurcation" = false)) ∧
    isYearCol "2019-20 bifurcation" = false := by
  constructor
  · intro rt1 c
    unfold yearCols
    rw [List.mem_filter]
    unfold isYearCol
    constructor
    · rintro ⟨hm, hY⟩
      simp only [Bool.and_eq_true, Bool.or_eq_true, Bool.not_eq_true'] at hY
      exact ⟨hm, hY.1, hY.2⟩
    · rintro ⟨hm, h1, h2⟩
      refine ⟨hm, ?_⟩
      simp only [Bool.and_eq_true, Bool.or_eq_true, Bool.not_eq_true']
      exact ⟨h1, h2⟩
  · decide

/-- C5: missing-column fatality — a RawTable with no "Factors" column makes
the pipeline halt with the missing-required-column error and produce no
cleaned output. -/
theorem missing_column_fatal (rt : RawTable) (h : rt.getCol "Factors" = none) :
    runPipeline rt = .error PipelineError.missingColumn := by
  unfold runPipeline
  rw [h]

/-- Witness for C5: a concrete table without a "Factors" column errors out. -/
theorem missing_column_fatal_witness :
    runPipeline ⟨[("Other", [some "1"])]⟩ = .error PipelineError.missingColumn :=
  missing_column_fatal ⟨[("Other", [some "1"])]⟩ (by decide)

/-- C6: selector totality — whenever the category column is present the
pipeline succeeds (the selector never fails, null labels included, which
match nothing), and the selection is a mapping of at most 6 entries, each
keyed by a canonical category name, whose selected row never has a null
category cell. -/
theorem selector_totality (rt : RawTable) (fvals : List Cell)
    (h : rt.getCol "Factors" = some fvals) :
    (∃ rc, runPipeline rt = .ok rc) ∧
    (selectedPairs (rt.setCol "Factors_clean" (fvals.map normCell))).length ≤ 6 ∧
    (∀ p ∈ selectedPairs (rt.setCol "Factors_clean" (fvals.map normCell)),
      p.1 ∈ targetFactors ∧ fvals[p.2]? ≠ some none) := by
  refine ⟨⟨_, (runPipeline_ok_iff rt _ _).mpr ⟨fvals, h, rfl, rfl⟩⟩, ?_, ?_⟩
  · unfold selectedPairs
    simpa using List.length_filterMap_le _ targetFactors
  · intro p hp
    rcases List.mem_filterMap.mp hp with ⟨t, htf, hmap⟩
    rcases Option.map_eq_some'.mp hmap with ⟨i, hidx, heq⟩
    subst heq
    refine ⟨htf, ?_⟩
    rw [selectedIdx_mut rt fvals t] at hidx
    rcases (findIdx?_first _ fvals i).mp hidx with ⟨a, ha, hpa, -⟩
    intro hcon
    rw [hcon] at ha
    injection ha with ha
    subst ha
    simp [cellMatches, normCell] at hpa

/-- Witness for C6: a concrete table with a null label row and one matching
row. -/
theorem selector_totality_witness :
    (∃ rc, runPipeline ⟨[("Factors", [none, some "Total"]), ("2020-21", [some "1", some "2"])]⟩
        = .ok rc) ∧
    (selectedPairs ((⟨[("Factors", [none, some "Total"]), ("2020-21", [some "1", some "2"])]⟩ :
        RawTable).setCol "Factors_clean" ([none, some "Total"].map normCell))).length ≤ 6 ∧
    (∀ p ∈ selectedPairs ((⟨[("Factors", [none, some "Total"]),
          ("2020-21", [some "1", some "2"])]⟩ :
        RawTable).setCol "Factors_clean" ([none, some "Total"].map normCell)),
      p.1 ∈ targetFactors ∧ ([none, some "Total"] : List Cell)[p.2]? ≠ some none) :=
  selector_totality ⟨[("Factors", [none, some "Total"]), ("2020-21", [some "1", some "2"])]⟩
    [none, some "Total"] (by decide)

/-- C7 counterexample: the pipeline is not mutation-free — running it on a
concrete table returns a mutated raw table (with the derived `Factors_clean`
column written in) different from the input. -/
theorem pipeline_mutates_input :
    (runPipeline ⟨[("Factors", [some "Total"]), ("2020-21", [some "7"])]⟩).toOption.map
        Prod.fst ≠
      some ⟨[("Factors", [some "Total"]), ("2020-21", [some "7"])]⟩ := by
  decide

/-- C7 (amended): rerun stability — running the pipeline again on the
raw table as the first run left it (the only mutation is the derived
`Factors_clean` column) reproduces the very same mutated table and a
bit-identical cleaned table; no other state accumulates across runs. -/
theorem pipeline_stable_on_rerun (rt rt1 : RawTable) (ct : CleanedTable)
    (h : runPipeline rt = .ok (rt1, ct)) :
    runPipeline rt1 = .ok (rt1, ct) := by
  obtain ⟨fvals, hf, h1, h2⟩ := (runPipeline_ok_iff rt rt1 ct).mp h
  refine (runPipeline_ok_iff rt1 rt1 ct).mpr ⟨fvals, ?_, ?_, h2⟩
  · rw [h1, getCol_setCol_ne _ _ _ _ (by decide)]
    exact hf
  · rw [h1, setCol_setCol]

/-- Witness for C7's amended theorem: rerunning on the concrete mutated table
reproduces it and the same cleaned output. -/
theorem pipeline_stable_on_rerun_witness :
    runPipeline ⟨[("Factors", [some "Total"]), ("2020-21", [some "7"]),
        ("Factors_clean", [some "total"])]⟩ =
      .ok (⟨[("Factors", [some "Total"]), ("2020-21", [some "7"]),
          ("Factors_clean", [some "total"])]⟩,
        ⟨["Total"], [("2020-21", [PValue.fin 7])]⟩) :=
  pipeline_stable_on_rerun ⟨[("Factors", [some "Total"]), ("2020-21", [some "7"])]⟩
    ⟨[("Factors", [some "Total"]), ("2020-21", [some "7"]), ("Factors_clean", [some "total"])]⟩
    ⟨["Total"], [("2020-21", [PValue.fin 7])]⟩ (by rfl)

/-- C8 counterexample: a negative input value ("-5") survives into the
cleaned table as a negative cell, so cells are not always non-negative. -/
theorem negative_cell_in_output :
    (runCleaned ⟨[("Factors", [some "Total"]), ("2020-21", [some "-5"])]⟩).map
        CleanedTable.rows =
      some [("2020-21", [PValue.fin (mkRat (-5) 1)])] ∧
    mkRat (-5) 1 < 0 :=
  ⟨by decide, by decide⟩

/-- C8 (amended): every cell of the cleaned table is a well-defined number:
it is exactly the parsed value of the corresponding input cell, or the fill
value 0.0 where parsing left the cell missing — so no missing value (NaN)
ever appears in the output, though sign and finiteness follow the input. -/
theorem cleaned_cells_parsed_or_zero (rt rt1 : RawTable) (ct : CleanedTable)
    (h : runPipeline rt = .ok (rt1, ct)) (y : String) (vs : List PValue)
    (hm : (y, vs) ∈ ct.rows) (j : ℕ) (v : PValue) (hv : vs[j]? = some v) :
    (rowFor rt1 y)[j]? = some (some v) ∨
    ((rowFor rt1 y)[j]? = some none ∧ v = PValue.fin 0) := by
  obtain ⟨fvals, -, -, hct⟩ := (runPipeline_ok_iff rt rt1 ct).mp h
  subst hct
  unfold cleanedOf dropFill at hm
  rcases List.mem_map.mp hm with ⟨r, hrf, hreq⟩
  rcases List.mem_filter.mp hrf with ⟨hrT, -⟩
  rcases List.mem_map.mp hrT with ⟨y', -, hy'⟩
  subst hy'
  injection hreq with hy1 hvs
  subst hy1
  subst hvs
  rw [List.getElem?_map, Option.map_eq_some'] at hv
  rcases hv with ⟨c, hc, hgc⟩
  cases c with
  | some q =>
    subst hgc
    exact Or.inl (by simpa using hc)
  | none =>
    exact Or.inr ⟨hc, hgc.symm⟩

/-- Witness for C8's amended theorem, at a concrete run where year "2020-21"
has the single parsed value 7. -/
theorem cleaned_cells_parsed_or_zero_witness :
    (rowFor (⟨[("Factors", [some "Total"]), ("2020-21", [some "7"]),
        ("Factors_clean", [some "total"])]⟩ : RawTable) "2020-21")[0]? =
      some (some (PValue.fin 7)) ∨
    ((rowFor (⟨[("Factors", [some "Total"]), ("2020-21", [some "7"]),
        ("Factors_clean", [some "total"])]⟩ : RawTable) "2020-21")[0]? = some none ∧
      PValue.fin 7 = PValue.fin 0) :=
  cleaned_cells_parsed_or_zero ⟨[("Factors", [some "Total"]), ("2020-21", [some "7"])]⟩
    ⟨[("Factors", [some "Total"]), ("2020-21", [some "7"]), ("Factors_clean", [some "total"])]⟩
    ⟨["Total"], [("2020-21", [PValue.fin 7])]⟩ (by rfl)
    "2020-21" [PValue.fin 7] (by decide) 0 (PValue.fin 7) (by decide)

/-- C9: column-set exactness — the cleaned table's column set is exactly the
canonical categories that found a matching row (a zero-match category yields
no column, with no error), and every row is rectangular with one defined
value per column. -/
theorem column_set_exactness (rt rt1 : RawTable) (ct : CleanedTable)
    (h : runPipeline rt = .ok (rt1, ct)) :
    ct.cats = (selectedPairs rt1).map Prod.fst ∧
    (∀ t, t ∈ ct.cats ↔ (t ∈ targetFactors ∧ selectedIdx rt1 t ≠ none)) ∧
    (∀ r ∈ ct.rows, r.2.length = ct.cats.length) := by
  obtain ⟨fvals, -, -, hct⟩ := (runPipeline_ok_iff rt rt1 ct).mp h
  subst hct
  refine ⟨rfl, ?_, ?_⟩
  · intro t
    constructor
    · intro ht
      rcases List.mem_map.mp ht with ⟨p, hp, hpt⟩
      rcases List.mem_filterMap.mp hp with ⟨t', ht', hmap⟩
      rcases Option.map_eq_some'.mp hmap with ⟨i, hidx, heq⟩
      subst heq
      subst hpt
      exact ⟨ht', by rw [hidx]; exact fun hcon => Option.noConfusion hcon⟩
    · rintro ⟨htf, hne⟩
      cases hidx : selectedIdx rt1 t with
      | none => exact absurd hidx hne
      | some i =>
        refine List.mem_map.mpr ⟨(t, i), ?_, rfl⟩
        exact List.mem_filterMap.mpr ⟨t, htf, by rw [hidx]; rfl⟩
  · intro r hr
    unfold cleanedOf dropFill at hr ⊢
    rcases List.mem_map.mp hr with ⟨r', hr'f, hr'eq⟩
    rcases List.mem_filter.mp hr'f with ⟨hr'T, -⟩
    rcases List.mem_map.mp hr'T with ⟨y', -, hy'⟩
    subst hy'
    subst hr'eq
    simp [rowFor, List.length_map]

/-- Witness for C9 at a concrete run: only "Total" matches, so the cleaned
table has exactly that one column. -/
theorem column_set_exactness_witness :
    (⟨["Total"], [("2020-21", [PValue.fin 7])]⟩ : CleanedTable).cats =
      (selectedPairs ⟨[("Factors", [some "Total"]), ("2020-21", [some "7"]),
          ("Factors_clean", [some "total"])]⟩).map Prod.fst ∧
    (∀ t, t ∈ (⟨["Total"], [("2020-21", [PValue.fin 7])]⟩ : CleanedTable).cats ↔
      (t ∈ targetFactors ∧
        selectedIdx ⟨[("Factors", [some "Total"]), ("2020-21", [some "7"]),
          ("Factors_clean", [some "total"])]⟩ t ≠ none)) ∧
    (∀ r ∈ (⟨["Total"], [("2020-21", [PValue.fin 7])]⟩ : CleanedTable).rows,
      r.2.length = (⟨["Total"], [("2020-21", [PValue.fin 7])]⟩ : CleanedTable).cats.length) :=
  column_set_exactness ⟨[("Factors", [some "Total"]), ("2020-21", [some "7"])]⟩
    ⟨[("Factors", [some "Total"]), ("2020-21", [some "7"]), ("Factors_clean", [some "total"])]⟩
    ⟨["Total"], [("2020-21", [PValue.fin 7])]⟩ (by rfl)

/-- C10: non-exclusive selection — on a concrete table whose single row is
labelled "Through Sale of Tickets Total", that same row (index 0) is selected
both for "Through Sale of Tickets" and for "Total", and the cleaned table
carries the row's value twice, once per column. -/
theorem one_row_two_categories :
    (runPipeline ⟨[("Factors", [some "Through Sale of Tickets Total"]),
        ("2020-21", [some "5"])]⟩).toOption.map (fun p => selectedPairs p.1) =
      some [("Through Sale of Tickets", 0), ("Total", 0)] ∧
    runCleaned ⟨[("Factors", [some "Through Sale of Tickets Total"]),
        ("2020-21", [some "5"])]⟩ =
      some ⟨["Through Sale of Tickets", "Total"],
            [("2020-21", [PValue.fin 5, PValue.fin 5])]⟩ :=
  ⟨by decide, by decide⟩

end BMTC
